import Mathlib

/-!
Verification of the FinTellect multi-source fallback aggregation engine.

The definitions below are a shallow embedding of the decision logic of
`scripts/universal_fetcher.py` (tiered fallback controller) and
`scripts/universal_news_aggregator.py` (symbol resolution, merge and
deduplication, sentiment classification).  Network calls are modelled as
oracles packaged in an environment record: each oracle field returns either
the provider payload the corresponding Python request produced, or `none`
for a request failure, an exception, or a falsy response object.  All data
transformations and branch decisions of the Python code are reproduced as
executable Lean functions.
-/

namespace FinTellect

/- ### Python string primitives

Lean core string functions (`String.toLower`, `String.trim`, `String.ltb`)
do not reduce inside the kernel, so the Python string operations used by the
repository are re-implemented structurally over `List Char`.  `pyLower`,
`pyUpper` and `pyStrip` model `str.lower()`, `str.upper()` and
`str.strip()` (ASCII case mapping and ASCII whitespace, the alphabet the
repository actually feeds them); `charListLe` models the Python
lexicographic string comparison by code point. -/

def wsB (c : Char) : Bool := c.isWhitespace

def pyLower (s : String) : String := ⟨s.data.map Char.toLower⟩

def pyUpper (s : String) : String := ⟨s.data.map Char.toUpper⟩

def pyStrip (s : String) : String :=
  ⟨((s.data.dropWhile wsB).reverse.dropWhile wsB).reverse⟩

def charListLe : List Char → List Char → Bool
  | [], _ => true
  | _ :: _, [] => false
  | a :: as, b :: bs =>
    if a.toNat < b.toNat then true
    else if b.toNat < a.toNat then false
    else charListLe as bs

/-- Python `a <= b` on strings: lexicographic comparison by code point. -/
def strLeB (a b : String) : Bool := charListLe a.data b.data

/- ### universal_fetcher.py — provider payloads

`Quote` is the JSON object returned by the Finnhub `quote` endpoint as the
gate in `get_finnhub_data` reads it: `c = some none` is a present `c` key
holding JSON null, `c = some (some v)` is a present numeric price, `c = none`
is an absent key.  `Overview` is the Alpha Vantage `OVERVIEW` document with
the three keys the code inspects (`Symbol`, `Name`, `MarketCapitalization`;
the market cap is a JSON string in this API, hence `Option String`).
`YInfo` is the part of `yfinance` `ticker.info` read by `get_yfinance_data`
and a `none` field is an absent key.  `CompanyRecord` stands for the
company record returned by a TickerTape or MoneyControl search; the fetcher
never inspects it, so it only carries the fields the validity discussion
needs (an identifying name, a price, a market capitalization).  Prices are
modelled as integers: the code compares them only against `0` and `None`. -/

structure Quote where
  c : Option (Option Int)
deriving DecidableEq

structure Overview where
  symbolStr : Option String
  nameStr : Option String
  marketCap : Option String
deriving DecidableEq

structure YInfo where
  currentPrice : Option Int
  regularMarketPrice : Option Int
  previousClose : Option Int
  longName : Option String
  shortName : Option String
deriving DecidableEq

structure CompanyRecord where
  nameStr : Option String
  price : Option Int
  marketCap : Option Int
deriving DecidableEq

/-- One provider result dict, tagged by its `source` field.  `finnhub`
carries the profile name and the gating quote; `alphaVantage` the overview;
`yfinance` the info dict; `tickertape` the search record plus the four
statement slots (`some h` models a non-empty DataFrame handle);
`moneycontrol` the search record.  Statement sub-fetches that the
aggregation logic never reads again (Finnhub news, peers, MoneyControl mini
statements, ...) are omitted: they populate the payload dict but influence
no branch. -/
inductive Payload where
  | finnhub (symbol : String) (profileName : Option String) (quote : Quote)
  | alphaVantage (symbol : String) (overview : Overview)
  | yfinance (symbol : String) (info : YInfo)
  | tickertape (symbol : String) (ticker_id : String) (company_info : CompanyRecord)
      (income balance cashflow scorecard : Option Nat)
  | moneycontrol (ticker_id : String) (company_info : CompanyRecord)
deriving DecidableEq

/-- Python `results['primary_data']['source']` for each payload shape. -/
def Payload.sourceName : Payload → String
  | .finnhub .. => "finnhub"
  | .alphaVantage .. => "alpha_vantage"
  | .yfinance .. => "yfinance"
  | .tickertape .. => "tickertape"
  | .moneycontrol .. => "moneycontrol"

/-- Oracle environment for one `fetch_comprehensive_data` query: every
field is the outcome of the corresponding network search or request for the
query's company name.  `none` covers request failure, timeout, an exception
and a falsy response, exactly the cases the Python code lumps together.
The three `Available` flags model `self.yfinance`, `self.tickertape` and
`self.moneycontrol` being initialized. -/
structure Env where
  finnhubSearch : Option String
  finnhubProfileName : String → Option String
  finnhubQuote : String → Option Quote
  avSearch : Option (String × Overview)
  avSuggestions : List String
  avOverview : String → Option Overview
  yfAvailable : Bool
  yfSearch : Option String
  yfInfo : String → Option YInfo
  ttAvailable : Bool
  ttSearch : Option (String × CompanyRecord)
  ttIncome : String → Option Nat
  ttBalance : String → Option Nat
  ttCashFlow : String → Option Nat
  ttScoreCard : String → Option Nat
  mcAvailable : Bool
  mcSearch : Option (String × CompanyRecord)

/-- Python truthiness of `overview_data.get('Symbol')`. -/
def av_symbol_truthy (o : Overview) : Bool :=
  match o.symbolStr with
  | some s => s ≠ ""
  | none => false

/-- Embedding of `get_finnhub_data`: the profile request never gates; the
function returns `None` when the quote request fails or lacks a `c` key,
or when the price is JSON null or zero. -/
def get_finnhub_data (env : Env) (symbol : String) : Option Payload :=
  match env.finnhubQuote symbol with
  | some q =>
    match q.c with
    | some (some current_price) =>
      if current_price = 0 then none
      else some (.finnhub symbol (env.finnhubProfileName symbol) q)
    | some none => none
    | none => none
  | none => none

/-- Embedding of `get_alpha_vantage_data`: returns `None` for a falsy
overview, a missing or falsy `Symbol`, or a `MarketCapitalization` that is
absent, the string `"None"` or the string `"0"`. -/
def get_alpha_vantage_data (symbol : String) (overview_data : Option Overview) :
    Option Payload :=
  match overview_data with
  | none => none
  | some o =>
    if av_symbol_truthy o then
      match o.marketCap with
      | some mc => if mc = "None" ∨ mc = "0" then none else some (.alphaVantage symbol o)
      | none => none
    else none

/-- Python `a or b` over number-or-None values: a `None` or zero left
operand falls through to the right operand. -/
def pyOrNum (a b : Option Int) : Option Int :=
  match a with
  | none => b
  | some v => if v = 0 then b else some v

/-- Python `info.get('currentPrice') or info.get('regularMarketPrice') or
info.get('previousClose')`. -/
def yf_current_price (i : YInfo) : Option Int :=
  pyOrNum i.currentPrice (pyOrNum i.regularMarketPrice i.previousClose)

/-- Embedding of `get_yfinance_data`: returns `None` for a falsy `info`
dict or a `None`/zero resolved price. -/
def get_yfinance_data (env : Env) (symbol : String) : Option Payload :=
  match env.yfInfo symbol with
  | none => none
  | some i =>
    match yf_current_price i with
    | some p => if p = 0 then none else some (.yfinance symbol i)
    | none => none

/-- Embedding of `get_tickertape_data`: every statement fetch is wrapped in
its own try/except, so the function always returns a payload dict — it has
no validity check at all. -/
def get_tickertape_data (env : Env) (symbol ticker_id : String)
    (company_data : CompanyRecord) : Payload :=
  .tickertape symbol ticker_id company_data (env.ttIncome ticker_id)
    (env.ttBalance ticker_id) (env.ttCashFlow ticker_id) (env.ttScoreCard ticker_id)

/-- Embedding of `get_moneycontrol_data`: always returns a payload dict. -/
def get_moneycontrol_data (ticker_id : String) (company_data : CompanyRecord) : Payload :=
  .moneycontrol ticker_id company_data

/-- Embedding of `search_global_stock_yfinance` at the availability guard:
the search returns `None` outright when yfinance is not initialized. -/
def yfSearchResult (env : Env) : Option String :=
  if env.yfAvailable then env.yfSearch else none

/-- Embedding of `search_indian_stock_tickertape` at the availability guard. -/
def ttSearchResult (env : Env) : Option (String × CompanyRecord) :=
  if env.ttAvailable then env.ttSearch else none

/-- Embedding of `search_indian_stock_moneycontrol` at the availability guard. -/
def mcSearchResult (env : Env) : Option (String × CompanyRecord) :=
  if env.mcAvailable then env.mcSearch else none

/-- The mutable `results` dict of `fetch_comprehensive_data`.  The constant
`company_name` and the wall-clock `fetch_timestamp` entries are outside the
decision logic and not modelled. -/
structure Results where
  primary_data : Option Payload
  secondary_data : List Payload
  data_sources : List String
deriving DecidableEq

/-- TIER 1 block of `fetch_comprehensive_data`: Finnhub search, then
`get_finnhub_data`, recorded as primary only when the fetch is non-None. -/
def tier1_finnhub (env : Env) (r : Results) : Results :=
  match env.finnhubSearch with
  | some symbol =>
    match get_finnhub_data env symbol with
    | some fh_data =>
      { r with primary_data := some fh_data,
               data_sources := r.data_sources ++ ["finnhub"] }
    | none => r
  | none => r

/-- TIER 2 block: guarded by `if not results['primary_data']`.  When the
Alpha Vantage search fails, the suggestion sub-path auto-tries the best
match; note that this sub-path assigns `primary_data = av_data` and appends
to `data_sources` without checking `av_data` for `None`. -/
def tier2_alpha_vantage (env : Env) (r : Results) : Results :=
  if r.primary_data.isSome then r
  else
    match env.avSearch with
    | some (symbol, overview) =>
      match get_alpha_vantage_data symbol (some overview) with
      | some av_data =>
        { r with primary_data := some av_data,
                 data_sources := r.data_sources ++ ["alpha_vantage"] }
      | none => r
    | none =>
      match env.avSuggestions with
      | best :: _ =>
        match env.avOverview best with
        | some overview_data =>
          if av_symbol_truthy overview_data then
            { r with primary_data := get_alpha_vantage_data best (some overview_data),
                     data_sources := r.data_sources ++ ["alpha_vantage"] }
          else r
        | none => r
      | [] => r

/-- TIER 3 block: guarded by `if not results['primary_data']`. -/
def tier3_yfinance (env : Env) (r : Results) : Results :=
  if r.primary_data.isSome then r
  else
    match yfSearchResult env with
    | some symbol =>
      match get_yfinance_data env symbol with
      | some yf_data =>
        { r with primary_data := some yf_data,
                 data_sources := r.data_sources ++ ["yfinance"] }
      | none => r
    | none => r

/-- TIER 4 block: guarded by `if not results['primary_data']`.  A successful
TickerTape search promotes the fetched payload to primary with no further
check (`get_tickertape_data` never returns `None`). -/
def tier4_tickertape (env : Env) (name : String) (r : Results) : Results :=
  if r.primary_data.isSome then r
  else
    match ttSearchResult env with
    | some (ticker_id, company_data) =>
      { r with primary_data :=
                 some (get_tickertape_data env (pyUpper name) ticker_id company_data),
               data_sources := r.data_sources ++ ["tickertape"] }
    | none => r

/-- Python `if s not in results['data_sources']: results['data_sources'].append(s)`. -/
def addSource (sources : List String) (s : String) : List String :=
  if s ∈ sources then sources else sources ++ [s]

/-- Supplementary Finnhub block of the sweep. -/
def sup_finnhub (env : Env) (primary_source : String) (r : Results) : Results :=
  if primary_source = "finnhub" then r
  else
    match env.finnhubSearch with
    | some symbol =>
      match get_finnhub_data env symbol with
      | some fh_data =>
        { r with secondary_data := r.secondary_data ++ [fh_data],
                 data_sources := addSource r.data_sources "finnhub" }
      | none => r
    | none => r

/-- Supplementary Alpha Vantage block of the sweep (plain search only, no
suggestion sub-path here). -/
def sup_alpha_vantage (env : Env) (primary_source : String) (r : Results) : Results :=
  if primary_source = "alpha_vantage" then r
  else
    match env.avSearch with
    | some (symbol, overview) =>
      match get_alpha_vantage_data symbol (some overview) with
      | some av_data =>
        { r with secondary_data := r.secondary_data ++ [av_data],
                 data_sources := addSource r.data_sources "alpha_vantage" }
      | none => r
    | none => r

/-- Supplementary yfinance block of the sweep. -/
def sup_yfinance (env : Env) (primary_source : String) (r : Results) : Results :=
  if primary_source ≠ "yfinance" ∧ env.yfAvailable then
    match yfSearchResult env with
    | some symbol =>
      match get_yfinance_data env symbol with
      | some yf_data =>
        { r with secondary_data := r.secondary_data ++ [yf_data],
                 data_sources := addSource r.data_sources "yfinance" }
      | none => r
    | none => r
  else r

/-- Supplementary TickerTape block of the sweep: a fetched payload is
appended to `secondary_data` with no validity check. -/
def sup_tickertape (env : Env) (name : String) (primary_source : String)
    (r : Results) : Results :=
  if primary_source ≠ "tickertape" ∧ env.ttAvailable then
    match ttSearchResult env with
    | some (ticker_id, company_data) =>
      { r with secondary_data :=
                 r.secondary_data ++ [get_tickertape_data env (pyUpper name) ticker_id company_data],
               data_sources := addSource r.data_sources "tickertape" }
    | none => r
  else r

/-- Supplementary MoneyControl block of the sweep: appended with no
validity check. -/
def sup_moneycontrol (env : Env) (primary_source : String) (r : Results) : Results :=
  if primary_source ≠ "moneycontrol" ∧ env.mcAvailable then
    match mcSearchResult env with
    | some (ticker_id, company_data) =>
      { r with secondary_data :=
                 r.secondary_data ++ [get_moneycontrol_data ticker_id company_data],
               data_sources := addSource r.data_sources "moneycontrol" }
    | none => r
  else r

/-- The four primary-selection tiers, in the fixed priority order of
`fetch_comprehensive_data`, starting from the freshly created `results`. -/
def primary_phase (env : Env) (name : String) : Results :=
  tier4_tickertape env name
    (tier3_yfinance env
      (tier2_alpha_vantage env
        (tier1_finnhub env
          { primary_data := none, secondary_data := [], data_sources := [] })))

/-- The supplementary sweep over the remaining providers. -/
def supplementary_sweep (env : Env) (name : String) (primary_source : String)
    (r : Results) : Results :=
  sup_moneycontrol env primary_source
    (sup_tickertape env name primary_source
      (sup_yfinance env primary_source
        (sup_alpha_vantage env primary_source
          (sup_finnhub env primary_source r))))

/-- The `results` dict at the final check of `fetch_comprehensive_data`:
the sweep runs only under `if results['primary_data']`. -/
def aggregate_results (env : Env) (name : String) : Results :=
  let r := primary_phase env name
  match r.primary_data with
  | some p => supplementary_sweep env name p.sourceName r
  | none => r

/-- Embedding of `fetch_comprehensive_data`: returns the results dict when
a primary source was found and `None` otherwise. -/
def fetch_comprehensive_data (env : Env) (name : String) : Option Results :=
  let r := aggregate_results env name
  if r.primary_data.isSome then some r else none

/-- The validated payload tier 1 would contribute: search success followed
by a non-None fetch. -/
def tier1Result (env : Env) : Option Payload :=
  match env.finnhubSearch with
  | some symbol => get_finnhub_data env symbol
  | none => none

/-- The validated payload tier 2 would contribute, through either the plain
search or the suggestion sub-path. -/
def tier2Result (env : Env) : Option Payload :=
  match env.avSearch with
  | some (symbol, overview) => get_alpha_vantage_data symbol (some overview)
  | none =>
    match env.avSuggestions with
    | best :: _ =>
      match env.avOverview best with
      | some overview_data =>
        if av_symbol_truthy overview_data then
          get_alpha_vantage_data best (some overview_data)
        else none
      | none => none
    | [] => none

/-- The validated payload tier 3 would contribute. -/
def tier3Result (env : Env) : Option Payload :=
  match yfSearchResult env with
  | some symbol => get_yfinance_data env symbol
  | none => none

/-- The payload tier 4 would contribute: any successful search, since the
TickerTape fetch never reports invalidity. -/
def tier4Result (env : Env) (name : String) : Option Payload :=
  match ttSearchResult env with
  | some (ticker_id, company_data) =>
    some (get_tickertape_data env (pyUpper name) ticker_id company_data)
  | none => none

/-- The contribution of the highest-priority tier that produced a validated
payload (Finnhub before Alpha Vantage before yfinance before TickerTape). -/
def firstValidTier (env : Env) (name : String) : Option Payload :=
  match tier1Result env with
  | some d => some d
  | none =>
    match tier2Result env with
    | some d => some d
    | none =>
      match tier3Result env with
      | some d => some d
      | none => tier4Result env name

/-- The per-tier validity conditions the code actually enforces before
promoting a payload: tiers 1-3 are characterized by the None-return checks
of their fetchers; the TickerTape and MoneyControl paths enforce nothing. -/
def codeValid : Payload → Bool
  | .finnhub _ _ q =>
    match q.c with
    | some (some current_price) => current_price ≠ 0
    | _ => false
  | .alphaVantage _ o =>
    av_symbol_truthy o &&
      match o.marketCap with
      | some mc => !(mc == "None" || mc == "0")
      | none => false
  | .yfinance _ i =>
    match yf_current_price i with
    | some p => p ≠ 0
    | none => false
  | .tickertape .. => true
  | .moneycontrol .. => true

/-- An identifying name echo for each payload, read off the fields the
providers return (profile name, overview Name/Symbol, info long/short name,
search company record name). -/
def Payload.nameEcho : Payload → Option String
  | .finnhub _ profileName _ => profileName
  | .alphaVantage _ o =>
    match o.nameStr with
    | some n => some n
    | none => o.symbolStr
  | .yfinance _ i =>
    match i.longName with
    | some n => some n
    | none => i.shortName
  | .tickertape _ _ company_info _ _ _ _ => company_info.nameStr
  | .moneycontrol _ company_info => company_info.nameStr

/-- Whether a payload carries a non-null, non-zero principal numeric
indicator (price or market capitalization). -/
def Payload.principalOk : Payload → Bool
  | .finnhub _ _ q =>
    match q.c with
    | some (some current_price) => current_price ≠ 0
    | _ => false
  | .alphaVantage _ o =>
    match o.marketCap with
    | some mc => !(mc == "None" || mc == "0")
    | none => false
  | .yfinance _ i =>
    match yf_current_price i with
    | some p => p ≠ 0
    | none => false
  | .tickertape _ _ company_info _ _ _ _ =>
    (match company_info.price with
     | some p => p ≠ 0
     | none => false) ||
    (match company_info.marketCap with
     | some m => m ≠ 0
     | none => false)
  | .moneycontrol _ company_info =>
    (match company_info.price with
     | some p => p ≠ 0
     | none => false) ||
    (match company_info.marketCap with
     | some m => m ≠ 0
     | none => false)

/-- Modelled from the spec: the shared Validity-Gate rule of section 4.2 —
a payload is invalid when it has no identifying name/symbol echo, or its
principal numeric indicator (price, market capitalization) is null, zero
or missing.  This definition follows the wording of the spec and is the
comparison point for the gate the code implements (`codeValid`). -/
def specValid (p : Payload) : Bool := p.nameEcho.isSome && p.principalOk

/- ### universal_news_aggregator.py — merge and deduplication -/

/-- One news article dict, restricted to the keys
`fast_deduplicate_and_sort` reads.  A missing `title` key yields `''` in
the code (`article.get('title', '')`), so `title` is a plain string; a
missing or null `published_at` is `none`. -/
structure Article where
  title : String
  url : String
  sourceTag : String
  published_at : Option String
deriving DecidableEq

/-- Python `article.get('title', '').lower().strip()`: the identity key
used for deduplication.  Note there is no internal whitespace collapsing. -/
def normTitle (a : Article) : String := pyStrip (pyLower a.title)

/-- The deduplication loop of `fast_deduplicate_and_sort`, threading the
`seen_titles` set (modelled as a list used only through membership).  An
article is kept when its key is truthy, unseen and strictly longer than 10
characters; only then is the key added to the set. -/
def dedupPass : List Article → List String → List Article × List String
  | [], seen => ([], seen)
  | a :: rest, seen =>
    let key := normTitle a
    if key ≠ "" ∧ key ∉ seen ∧ key.length > 10 then
      let out := dedupPass rest (key :: seen)
      (a :: out.1, out.2)
    else
      dedupPass rest seen

/-- Python `x.get('published_at') or ''`: the sort key. -/
def pubKey (a : Article) : String := a.published_at.getD ""

/-- The comparison `list.sort(key=..., reverse=True)` sorts by: article `a`
may stay before `b` exactly when the key of `b` does not exceed the key of
`a` (Python string comparison, descending, stable). -/
def newsDescOrder (a b : Article) : Prop := strLeB (pubKey b) (pubKey a) = true

instance : DecidableRel newsDescOrder := fun _ _ =>
  inferInstanceAs (Decidable (_ = true))

/-- Embedding of `fast_deduplicate_and_sort`: deduplicate by normalized
title, stable-sort by `published_at` descending (`List.insertionSort` with
`newsDescOrder` is exactly a stable descending sort), cap to 25. -/
def fast_deduplicate_and_sort (articles : List Article) : List Article :=
  let unique_articles := (dedupPass articles []).1
  (List.insertionSort newsDescOrder unique_articles).take 25

/-- Modelled from the spec: the normalization of section 3 and 4.4 —
trimmed, whitespace-collapsed, lowercased title.  Stated only to compare
the identity key of the spec with the one the code computes. -/
def specNormalize (s : String) : String :=
  ⟨joinWords (((pyLower s).data.splitOnP wsB).filter (fun w => w ≠ []))⟩
where
  joinWords : List (List Char) → List Char
    | [] => []
    | [w] => w
    | w :: ws => w ++ ' ' :: joinWords ws

/- ### universal_news_aggregator.py — symbol resolution -/

/-- One value of the `stock_mappings` table, with the four keys every entry
of the table carries. -/
structure StockEntry where
  symbol : String
  exchange : String
  yf_symbol : String
  company_name : String
deriving DecidableEq

/-- The result dict of `get_stock_info`. -/
structure StockInfoResult where
  company_name : String
  symbol : String
  exchange : String
  yf_symbol : String
  is_indian : Bool
deriving DecidableEq

/-- The static `self.stock_mappings` table of `UniversalNewsAggregator`,
keyed by lowercase company name. -/
def stock_mappings : List (String × StockEntry) := [
  ("reliance", ⟨"RELIANCE", "NSE", "RELIANCE.NS", "Reliance Industries Limited"⟩),
  ("tcs", ⟨"TCS", "NSE", "TCS.NS", "Tata Consultancy Services Limited"⟩),
  ("infosys", ⟨"INFY", "NSE", "INFY.NS", "Infosys Limited"⟩),
  ("hdfc", ⟨"HDFCBANK", "NSE", "HDFCBANK.NS", "HDFC Bank Limited"⟩),
  ("icici", ⟨"ICICIBANK", "NSE", "ICICIBANK.NS", "ICICI Bank Limited"⟩),
  ("itc", ⟨"ITC", "NSE", "ITC.NS", "ITC Limited"⟩),
  ("wipro", ⟨"WIPRO", "NSE", "WIPRO.NS", "Wipro Limited"⟩),
  ("maruti", ⟨"MARUTI", "NSE", "MARUTI.NS", "Maruti Suzuki India Limited"⟩),
  ("bajaj finance", ⟨"BAJFINANCE", "NSE", "BAJFINANCE.NS", "Bajaj Finance Limited"⟩),
  ("titan", ⟨"TITAN", "NSE", "TITAN.NS", "Titan Company Limited"⟩),
  ("asian paints", ⟨"ASIANPAINT", "NSE", "ASIANPAINT.NS", "Asian Paints Limited"⟩),
  ("zomato", ⟨"ZOMATO", "NSE", "ZOMATO.NS", "Zomato Limited"⟩),
  ("adani", ⟨"ADANIENT", "NSE", "ADANIENT.NS", "Adani Enterprises Limited"⟩),
  ("tata motors", ⟨"TATAMOTORS", "NSE", "TATAMOTORS.NS", "Tata Motors Limited"⟩),
  ("sbi", ⟨"SBIN", "NSE", "SBIN.NS", "State Bank of India"⟩),
  ("axis bank", ⟨"AXISBANK", "NSE", "AXISBANK.NS", "Axis Bank Limited"⟩),
  ("kotak", ⟨"KOTAKBANK", "NSE", "KOTAKBANK.NS", "Kotak Mahindra Bank Limited"⟩),
  ("apple", ⟨"AAPL", "US", "AAPL", "Apple Inc."⟩),
  ("microsoft", ⟨"MSFT", "US", "MSFT", "Microsoft Corporation"⟩),
  ("google", ⟨"GOOGL", "US", "GOOGL", "Alphabet Inc."⟩),
  ("alphabet", ⟨"GOOGL", "US", "GOOGL", "Alphabet Inc."⟩),
  ("amazon", ⟨"AMZN", "US", "AMZN", "Amazon.com Inc."⟩),
  ("tesla", ⟨"TSLA", "US", "TSLA", "Tesla Inc."⟩),
  ("meta", ⟨"META", "US", "META", "Meta Platforms Inc."⟩),
  ("netflix", ⟨"NFLX", "US", "NFLX", "Netflix Inc."⟩),
  ("nvidia", ⟨"NVDA", "US", "NVDA", "NVIDIA Corporation"⟩),
  ("jpmorgan", ⟨"JPM", "US", "JPM", "JPMorgan Chase & Co."⟩),
  ("visa", ⟨"V", "US", "V", "Visa Inc."⟩),
  ("mastercard", ⟨"MA", "US", "MA", "Mastercard Incorporated"⟩),
  ("blackrock", ⟨"BLK", "US", "BLK", "BlackRock Inc."⟩)]

/-- The `inferred_mappings` table of `get_stock_info`, keyed by uppercase
company name: `(symbol, yf_symbol)` pairs. -/
def inferred_mappings : List (String × (String × String)) := [
  ("BLACKROCK INC", ("BLK", "BLK")),
  ("BLACKROCK", ("BLK", "BLK")),
  ("APPLE INC", ("AAPL", "AAPL")),
  ("MICROSOFT CORP", ("MSFT", "MSFT")),
  ("AMAZON.COM INC", ("AMZN", "AMZN")),
  ("GOOGLE", ("GOOGL", "GOOGL")),
  ("ALPHABET INC", ("GOOGL", "GOOGL")),
  ("TESLA INC", ("TSLA", "TSLA")),
  ("META PLATFORMS", ("META", "META")),
  ("NVIDIA CORP", ("NVDA", "NVDA")),
  ("JPMORGAN CHASE", ("JPM", "JPM"))]

/-- Embedding of `get_stock_info`: static lookup by lowercased name, then
by the inferred uppercase table, then the uppercased raw input as the
fallback candidate.  The function is total by construction — it never
fails and always returns a result dict. -/
def get_stock_info (company_name : String) : StockInfoResult :=
  match stock_mappings.lookup (pyLower company_name) with
  | some stock_info =>
    ⟨stock_info.company_name, stock_info.symbol, stock_info.exchange,
     stock_info.yf_symbol, stock_info.exchange == "NSE"⟩
  | none =>
    match inferred_mappings.lookup (pyUpper company_name) with
    | some (symbol, yf_symbol) =>
      ⟨company_name, symbol, "US", yf_symbol, false⟩
    | none =>
      ⟨company_name, pyUpper company_name, "UNKNOWN", pyUpper company_name, false⟩

/- ### universal_news_aggregator.py — sentiment -/

/-- The result dict of `analyze_sentiment`. -/
structure SentimentVerdict where
  sentiment : String
  polarity : ℚ
  subjectivity : ℚ
deriving DecidableEq

/-- The result dict of `analyze_sentiment_fast`. -/
structure FastSentimentVerdict where
  sentiment : String
  polarity : ℚ
  confidence : ℚ
deriving DecidableEq

/-- A TextBlob oracle: `none` when the library failed to import
(`self.textblob` is falsy); otherwise a map from the analyzed text to
the `(polarity, subjectivity)` pair, with `none` for a raised exception.
Polarity is a float in `[-1, 1]`; the code only compares it against the
literals `0.1` and `-0.1`, so rationals model the comparisons exactly. -/
abbrev TextBlobOracle := Option (String → Option (ℚ × ℚ))

/-- Python `round(x, 3)` (the tie-breaking at exact half-thousandths is
round-half-even in Python and half-up here; no claim and no branch of the
code touches a tie). -/
def round3 (x : ℚ) : ℚ := (round (x * 1000) : ℤ) / 1000

/-- Embedding of `analyze_sentiment`: neutral fallback when TextBlob is
unavailable, the text is falsy, or the analysis raises; otherwise the
fixed-threshold classification of the polarity. -/
def analyze_sentiment (textblob : TextBlobOracle) (text : String) : SentimentVerdict :=
  match textblob with
  | none => ⟨"neutral", 0, 0⟩
  | some tb =>
    if text = "" then ⟨"neutral", 0, 0⟩
    else
      match tb text with
      | none => ⟨"neutral", 0, 0⟩
      | some (polarity, subjectivity) =>
        ⟨if polarity > 1/10 then "positive"
         else if polarity < -(1/10) then "negative"
         else "neutral", polarity, subjectivity⟩

/-- Embedding of `analyze_sentiment_fast`: analyzes
`f"{title} {content[:200]}"` and reports the rounded polarity and its
absolute value as confidence. -/
def analyze_sentiment_fast (textblob : TextBlobOracle) (title content : String) :
    FastSentimentVerdict :=
  match textblob with
  | none => ⟨"neutral", 0, 0⟩
  | some tb =>
    match tb (title ++ " " ++ ⟨content.data.take 200⟩) with
    | none => ⟨"neutral", 0, 0⟩
    | some (polarity, _) =>
      ⟨if polarity > 1/10 then "positive"
       else if polarity < -(1/10) then "negative"
       else "neutral", round3 polarity, round3 |polarity|⟩

/- ### Lemmas about the fallback controller -/

theorem tier1_primary (env : Env) (r : Results) (h : r.primary_data = none) :
    (tier1_finnhub env r).primary_data = tier1Result env := by
  unfold tier1_finnhub tier1Result
  cases hs : env.finnhubSearch with
  | none => simp [h]
  | some symbol => cases hf : get_finnhub_data env symbol <;> simp [hf, h]

theorem tier2_skip (env : Env) (r : Results) (h : r.primary_data.isSome) :
    tier2_alpha_vantage env r = r := by
  unfold tier2_alpha_vantage
  simp [h]

theorem tier2_primary (env : Env) (r : Results) (h : r.primary_data = none) :
    (tier2_alpha_vantage env r).primary_data = tier2Result env := by
  unfold tier2_alpha_vantage tier2Result
  simp only [h, Option.isSome_none, Bool.false_eq_true, if_false]
  cases hs : env.avSearch with
  | some pair =>
    obtain ⟨symbol, overview⟩ := pair
    cases hf : get_alpha_vantage_data symbol (some overview) <;> simp [hf, h]
  | none =>
    cases hl : env.avSuggestions with
    | nil => simp [h]
    | cons best rest =>
      cases ho : env.avOverview best with
      | none => simp [ho, h]
      | some overview_data =>
        by_cases hb : av_symbol_truthy overview_data <;> simp [ho, hb, h]

theorem tier3_skip (env : Env) (r : Results) (h : r.primary_data.isSome) :
    tier3_yfinance env r = r := by
  unfold tier3_yfinance
  simp [h]

theorem tier3_primary (env : Env) (r : Results) (h : r.primary_data = none) :
    (tier3_yfinance env r).primary_data = tier3Result env := by
  unfold tier3_yfinance tier3Result
  simp only [h, Option.isSome_none, Bool.false_eq_true, if_false]
  cases hs : yfSearchResult env with
  | none => simp [h]
  | some symbol => cases hf : get_yfinance_data env symbol <;> simp [hf, h]

theorem tier4_skip (env : Env) (name : String) (r : Results)
    (h : r.primary_data.isSome) :
    tier4_tickertape env name r = r := by
  unfold tier4_tickertape
  simp [h]

theorem tier4_primary (env : Env) (name : String) (r : Results)
    (h : r.primary_data = none) :
    (tier4_tickertape env name r).primary_data = tier4Result env name := by
  unfold tier4_tickertape tier4Result
  simp only [h, Option.isSome_none, Bool.false_eq_true, if_false]
  cases hs : ttSearchResult env with
  | none => simp [h]
  | some pair => obtain ⟨ticker_id, company_data⟩ := pair; simp

theorem primary_phase_primary (env : Env) (name : String) :
    (primary_phase env name).primary_data = firstValidTier env name := by
  unfold primary_phase firstValidTier
  have h1 := tier1_primary env ⟨none, [], []⟩ rfl
  cases ht1 : tier1Result env with
  | some d =>
    rw [ht1] at h1
    have hs : ((tier1_finnhub env ⟨none, [], []⟩)).primary_data.isSome := by
      simp [h1]
    rw [tier2_skip env _ hs, tier3_skip env _ hs, tier4_skip env name _ hs, h1]
  | none =>
    rw [ht1] at h1
    have h2 := tier2_primary env _ h1
    cases ht2 : tier2Result env with
    | some d =>
      rw [ht2] at h2
      have hs : (tier2_alpha_vantage env (tier1_finnhub env ⟨none, [], []⟩)).primary_data.isSome := by
        simp [h2]
      rw [tier3_skip env _ hs, tier4_skip env name _ hs, h2]
    | none =>
      rw [ht2] at h2
      have h3 := tier3_primary env _ h2
      cases ht3 : tier3Result env with
      | some d =>
        rw [ht3] at h3
        have hs : (tier3_yfinance env (tier2_alpha_vantage env (tier1_finnhub env ⟨none, [], []⟩))).primary_data.isSome := by
          simp [h3]
        rw [tier4_skip env name _ hs, h3]
      | none =>
        rw [ht3] at h3
        exact tier4_primary env name _ h3

theorem tier1_secondary (env : Env) (r : Results) :
    (tier1_finnhub env r).secondary_data = r.secondary_data := by
  unfold tier1_finnhub
  cases hs : env.finnhubSearch with
  | none => rfl
  | some symbol => cases hf : get_finnhub_data env symbol <;> simp [hf]

theorem tier2_secondary (env : Env) (r : Results) :
    (tier2_alpha_vantage env r).secondary_data = r.secondary_data := by
  unfold tier2_alpha_vantage
  by_cases h : r.primary_data.isSome
  · simp [h]
  · simp only [h, if_false]
    cases hs : env.avSearch with
    | some pair =>
      obtain ⟨symbol, overview⟩ := pair
      cases hf : get_alpha_vantage_data symbol (some overview) <;> simp [hf]
    | none =>
      cases hl : env.avSuggestions with
      | nil => rfl
      | cons best rest =>
        cases ho : env.avOverview best with
        | none => simp [ho]
        | some overview_data => by_cases hb : av_symbol_truthy overview_data <;> simp [ho, hb]

theorem tier3_secondary (env : Env) (r : Results) :
    (tier3_yfinance env r).secondary_data = r.secondary_data := by
  unfold tier3_yfinance
  by_cases h : r.primary_data.isSome
  · simp [h]
  · simp only [h, if_false]
    cases hs : yfSearchResult env with
    | none => rfl
    | some symbol => cases hf : get_yfinance_data env symbol <;> simp [hf]

theorem tier4_secondary (env : Env) (name : String) (r : Results) :
    (tier4_tickertape env name r).secondary_data = r.secondary_data := by
  unfold tier4_tickertape
  by_cases h : r.primary_data.isSome
  · simp [h]
  · simp only [h, if_false]
    cases hs : ttSearchResult env with
    | none => rfl
    | some pair => obtain ⟨ticker_id, company_data⟩ := pair; rfl

theorem sup_finnhub_primary (env : Env) (ps : String) (r : Results) :
    (sup_finnhub env ps r).primary_data = r.primary_data := by
  unfold sup_finnhub
  by_cases h : ps = "finnhub"
  · simp [h]
  · simp only [h, if_false]
    cases hs : env.finnhubSearch with
    | none => rfl
    | some symbol => cases hf : get_finnhub_data env symbol <;> simp [hf]

theorem sup_alpha_vantage_primary (env : Env) (ps : String) (r : Results) :
    (sup_alpha_vantage env ps r).primary_data = r.primary_data := by
  unfold sup_alpha_vantage
  by_cases h : ps = "alpha_vantage"
  · simp [h]
  · simp only [h, if_false]
    cases hs : env.avSearch with
    | none => rfl
    | some pair =>
      obtain ⟨symbol, overview⟩ := pair
      cases hf : get_alpha_vantage_data symbol (some overview) <;> simp [hf]

theorem sup_yfinance_primary (env : Env) (ps : String) (r : Results) :
    (sup_yfinance env ps r).primary_data = r.primary_data := by
  unfold sup_yfinance
  by_cases h : ps ≠ "yfinance" ∧ env.yfAvailable
  · rw [if_pos h]
    cases hs : yfSearchResult env with
    | none => rfl
    | some symbol => cases hf : get_yfinance_data env symbol <;> simp [hf]
  · rw [if_neg h]

theorem sup_tickertape_primary (env : Env) (name ps : String) (r : Results) :
    (sup_tickertape env name ps r).primary_data = r.primary_data := by
  unfold sup_tickertape
  by_cases h : ps ≠ "tickertape" ∧ env.ttAvailable
  · rw [if_pos h]
    cases hs : ttSearchResult env with
    | none => rfl
    | some pair => obtain ⟨ticker_id, company_data⟩ := pair; rfl
  · rw [if_neg h]

theorem sup_moneycontrol_primary (env : Env) (ps : String) (r : Results) :
    (sup_moneycontrol env ps r).primary_data = r.primary_data := by
  unfold sup_moneycontrol
  by_cases h : ps ≠ "moneycontrol" ∧ env.mcAvailable
  · rw [if_pos h]
    cases hs : mcSearchResult env with
    | none => rfl
    | some pair => obtain ⟨ticker_id, company_data⟩ := pair; rfl
  · rw [if_neg h]

theorem sweep_primary (env : Env) (name ps : String) (r : Results) :
    (supplementary_sweep env name ps r).primary_data = r.primary_data := by
  unfold supplementary_sweep
  rw [sup_moneycontrol_primary, sup_tickertape_primary, sup_yfinance_primary,
    sup_alpha_vantage_primary, sup_finnhub_primary]

theorem aggregate_primary (env : Env) (name : String) :
    (aggregate_results env name).primary_data = firstValidTier env name := by
  unfold aggregate_results
  cases hp : (primary_phase env name).primary_data with
  | none => rw [← primary_phase_primary env name, hp]; simp [hp]
  | some p => simp only [hp, sweep_primary]; rw [← primary_phase_primary env name, hp]

theorem get_finnhub_valid (env : Env) (s : String) (p : Payload)
    (h : get_finnhub_data env s = some p) : codeValid p = true := by
  unfold get_finnhub_data at h
  cases hq : env.finnhubQuote s with
  | none => simp [hq] at h
  | some q =>
    simp only [hq] at h
    match hc : q.c with
    | none => simp [hc] at h
    | some none => simp [hc] at h
    | some (some v) =>
      simp only [hc] at h
      by_cases hv : v = 0
      · simp [hv] at h
      · rw [if_neg hv] at h
        simp only [Option.some.injEq] at h
        subst h
        simp [codeValid, hc, hv]

theorem get_alpha_vantage_valid (s : String) (ov : Overview) (p : Payload)
    (h : get_alpha_vantage_data s (some ov) = some p) : codeValid p = true := by
  unfold get_alpha_vantage_data at h
  by_cases ht : av_symbol_truthy ov
  · simp only [ht, if_true] at h
    match hm : ov.marketCap with
    | none => simp [hm] at h
    | some mc =>
      simp only [hm] at h
      by_cases hmc : mc = "None" ∨ mc = "0"
      · simp [if_pos hmc] at h
      · rw [if_neg hmc] at h
        simp only [Option.some.injEq] at h
        subst h
        push_neg at hmc
        simp [codeValid, ht, hm, hmc.1, hmc.2]
  · simp [ht] at h

theorem get_yfinance_valid (env : Env) (s : String) (p : Payload)
    (h : get_yfinance_data env s = some p) : codeValid p = true := by
  unfold get_yfinance_data at h
  cases hi : env.yfInfo s with
  | none => simp [hi] at h
  | some i =>
    simp only [hi] at h
    match hp : yf_current_price i with
    | none => simp [hp] at h
    | some v =>
      simp only [hp] at h
      by_cases hv : v = 0
      · simp [hv] at h
      · rw [if_neg hv] at h
        simp only [Option.some.injEq] at h
        subst h
        simp [codeValid, hp, hv]

/-- The invariant carried through the pipeline: every payload already
recorded in the results dict passed the validity check its tier enforces. -/
def ResultsValid (r : Results) : Prop :=
  (∀ p, r.primary_data = some p → codeValid p = true) ∧
  (∀ p ∈ r.secondary_data, codeValid p = true)

theorem tier1_valid (env : Env) (r : Results) (h : ResultsValid r) :
    ResultsValid (tier1_finnhub env r) := by
  unfold tier1_finnhub
  cases hs : env.finnhubSearch with
  | none => exact h
  | some symbol =>
    cases hf : get_finnhub_data env symbol with
    | none => simp only [hf]; exact h
    | some d =>
      simp only [hf]
      refine ⟨fun p hp => ?_, fun p hp => h.2 p hp⟩
      simp only [Option.some.injEq] at hp
      exact hp ▸ get_finnhub_valid env symbol d hf

theorem tier2_valid (env : Env) (r : Results) (h : ResultsValid r) :
    ResultsValid (tier2_alpha_vantage env r) := by
  unfold tier2_alpha_vantage
  by_cases hp : r.primary_data.isSome
  · rw [if_pos hp]; exact h
  · rw [if_neg hp]
    cases hs : env.avSearch with
    | some pair =>
      obtain ⟨symbol, overview⟩ := pair
      cases hf : get_alpha_vantage_data symbol (some overview) with
      | none => simp only [hf]; exact h
      | some d =>
        simp only [hf]
        refine ⟨fun p hq => ?_, fun p hq => h.2 p hq⟩
        simp only [Option.some.injEq] at hq
        exact hq ▸ get_alpha_vantage_valid symbol overview d hf
    | none =>
      cases hl : env.avSuggestions with
      | nil => exact h
      | cons best rest =>
        cases ho : env.avOverview best with
        | none => simp only [ho]; exact h
        | some overview_data =>
          simp only [ho]
          by_cases hb : av_symbol_truthy overview_data
          · rw [if_pos hb]
            refine ⟨fun p hq => ?_, fun p hq => h.2 p hq⟩
            have hq2 : get_alpha_vantage_data best (some overview_data) = some p := hq
            exact get_alpha_vantage_valid best overview_data p hq2
          · rw [if_neg hb]
            exact h

theorem tier3_valid (env : Env) (r : Results) (h : ResultsValid r) :
    ResultsValid (tier3_yfinance env r) := by
  unfold tier3_yfinance
  by_cases hp : r.primary_data.isSome
  · rw [if_pos hp]; exact h
  · rw [if_neg hp]
    cases hs : yfSearchResult env with
    | none => exact h
    | some symbol =>
      cases hf : get_yfinance_data env symbol with
      | none => simp only [hf]; exact h
      | some d =>
        simp only [hf]
        refine ⟨fun p hq => ?_, fun p hq => h.2 p hq⟩
        simp only [Option.some.injEq] at hq
        exact hq ▸ get_yfinance_valid env symbol d hf

theorem tier4_valid (env : Env) (name : String) (r : Results) (h : ResultsValid r) :
    ResultsValid (tier4_tickertape env name r) := by
  unfold tier4_tickertape
  by_cases hp : r.primary_data.isSome
  · rw [if_pos hp]; exact h
  · rw [if_neg hp]
    cases hs : ttSearchResult env with
    | none => exact h
    | some pair =>
      obtain ⟨ticker_id, company_data⟩ := pair
      refine ⟨fun p hq => ?_, fun p hq => h.2 p hq⟩
      simp only [Option.some.injEq] at hq
      subst hq
      rfl

theorem sup_finnhub_valid (env : Env) (ps : String) (r : Results)
    (h : ResultsValid r) : ResultsValid (sup_finnhub env ps r) := by
  unfold sup_finnhub
  by_cases hg : ps = "finnhub"
  · rw [if_pos hg]; exact h
  · rw [if_neg hg]
    cases hs : env.finnhubSearch with
    | none => exact h
    | some symbol =>
      cases hf : get_finnhub_data env symbol with
      | none => simp only [hf]; exact h
      | some d =>
        simp only [hf]
        refine ⟨fun p hq => h.1 p hq, fun p hq => ?_⟩
        have hq2 : p ∈ r.secondary_data ++ [d] := hq
        rcases List.mem_append.mp hq2 with hq3 | hq3
        · exact h.2 p hq3
        · simp only [List.mem_singleton] at hq3
          exact hq3 ▸ get_finnhub_valid env symbol d hf

theorem sup_alpha_vantage_valid (env : Env) (ps : String) (r : Results)
    (h : ResultsValid r) : ResultsValid (sup_alpha_vantage env ps r) := by
  unfold sup_alpha_vantage
  by_cases hg : ps = "alpha_vantage"
  · rw [if_pos hg]; exact h
  · rw [if_neg hg]
    cases hs : env.avSearch with
    | none => exact h
    | some pair =>
      obtain ⟨symbol, overview⟩ := pair
      cases hf : get_alpha_vantage_data symbol (some overview) with
      | none => simp only [hf]; exact h
      | some d =>
        simp only [hf]
        refine ⟨fun p hq => h.1 p hq, fun p hq => ?_⟩
        have hq2 : p ∈ r.secondary_data ++ [d] := hq
        rcases List.mem_append.mp hq2 with hq3 | hq3
        · exact h.2 p hq3
        · simp only [List.mem_singleton] at hq3
          exact hq3 ▸ get_alpha_vantage_valid symbol overview d hf

theorem sup_yfinance_valid (env : Env) (ps : String) (r : Results)
    (h : ResultsValid r) : ResultsValid (sup_yfinance env ps r) := by
  unfold sup_yfinance
  by_cases hg : ps ≠ "yfinance" ∧ env.yfAvailable
  · rw [if_pos hg]
    cases hs : yfSearchResult env with
    | none => exact h
    | some symbol =>
      cases hf : get_yfinance_data env symbol with
      | none => simp only [hf]; exact h
      | some d =>
        simp only [hf]
        refine ⟨fun p hq => h.1 p hq, fun p hq => ?_⟩
        have hq2 : p ∈ r.secondary_data ++ [d] := hq
        rcases List.mem_append.mp hq2 with hq3 | hq3
        · exact h.2 p hq3
        · simp only [List.mem_singleton] at hq3
          exact hq3 ▸ get_yfinance_valid env symbol d hf
  · rw [if_neg hg]; exact h

theorem sup_tickertape_valid (env : Env) (name ps : String) (r : Results)
    (h : ResultsValid r) : ResultsValid (sup_tickertape env name ps r) := by
  unfold sup_tickertape
  by_cases hg : ps ≠ "tickertape" ∧ env.ttAvailable
  · rw [if_pos hg]
    cases hs : ttSearchResult env with
    | none => exact h
    | some pair =>
      obtain ⟨ticker_id, company_data⟩ := pair
      refine ⟨fun p hq => h.1 p hq, fun p hq => ?_⟩
      have hq2 : p ∈ r.secondary_data ++
          [get_tickertape_data env (pyUpper name) ticker_id company_data] := hq
      rcases List.mem_append.mp hq2 with hq3 | hq3
      · exact h.2 p hq3
      · simp only [List.mem_singleton] at hq3
        subst hq3
        rfl
  · rw [if_neg hg]; exact h

theorem sup_moneycontrol_valid (env : Env) (ps : String) (r : Results)
    (h : ResultsValid r) : ResultsValid (sup_moneycontrol env ps r) := by
  unfold sup_moneycontrol
  by_cases hg : ps ≠ "moneycontrol" ∧ env.mcAvailable
  · rw [if_pos hg]
    cases hs : mcSearchResult env with
    | none => exact h
    | some pair =>
      obtain ⟨ticker_id, company_data⟩ := pair
      refine ⟨fun p hq => h.1 p hq, fun p hq => ?_⟩
      have hq2 : p ∈ r.secondary_data ++ [get_moneycontrol_data ticker_id company_data] := hq
      rcases List.mem_append.mp hq2 with hq3 | hq3
      · exact h.2 p hq3
      · simp only [List.mem_singleton] at hq3
        subst hq3
        rfl
  · rw [if_neg hg]; exact h

theorem aggregate_valid (env : Env) (name : String) :
    ResultsValid (aggregate_results env name) := by
  have h0 : ResultsValid ⟨none, [], []⟩ := by
    constructor
    · intro p hp; cases hp
    · intro p hp; exact absurd hp (List.not_mem_nil p)
  have h4 : ResultsValid (primary_phase env name) :=
    tier4_valid env name _ (tier3_valid env _ (tier2_valid env _ (tier1_valid env _ h0)))
  unfold aggregate_results supplementary_sweep
  cases hp : (primary_phase env name).primary_data with
  | none => simp only [hp]; exact h4
  | some p =>
    simp only [hp]
    exact sup_moneycontrol_valid env _ _
      (sup_tickertape_valid env name _ _
        (sup_yfinance_valid env _ _
          (sup_alpha_vantage_valid env _ _
            (sup_finnhub_valid env _ _ h4))))

/- ### Claims about the fallback controller -/

/-- Claim C1 (amended): for every query in which at least one tier's fetch
succeeds under the validity check that tier itself enforces (Finnhub: a
present non-zero quote price, with no name-echo requirement; Alpha
Vantage: a truthy Symbol echo and a real market capitalization; yfinance:
a truthy info dict and a non-zero resolved price; TickerTape: search
success, with no further check), the primary slot is non-null and holds
the highest-priority such tier's result — `firstValidTier` is by
construction the first of the four tier results in the fixed order
Finnhub before Alpha Vantage before yfinance before TickerTape — so no
lower tier's result is ever chosen as primary when a higher tier's fetch
succeeded.  Under the spec's shared Validity Gate the original claim is
false: see the counterexample below. -/
theorem c1_priority_monotonic (env : Env) (name : String) (d : Payload)
    (h : firstValidTier env name = some d) :
    ∃ r, fetch_comprehensive_data env name = some r ∧ r.primary_data = some d := by
  have hp : (aggregate_results env name).primary_data = some d := by
    rw [aggregate_primary]; exact h
  refine ⟨aggregate_results env name, ?_, hp⟩
  unfold fetch_comprehensive_data
  simp only [hp, Option.isSome_some, if_true]

/-- Environment with every provider failing: the base for the concrete
witnesses below. -/
def envAllNone : Env where
  finnhubSearch := none
  finnhubProfileName := fun _ => none
  finnhubQuote := fun _ => none
  avSearch := none
  avSuggestions := []
  avOverview := fun _ => none
  yfAvailable := false
  yfSearch := none
  yfInfo := fun _ => none
  ttAvailable := false
  ttSearch := none
  ttIncome := fun _ => none
  ttBalance := fun _ => none
  ttCashFlow := fun _ => none
  ttScoreCard := fun _ => none
  mcAvailable := false
  mcSearch := none

/-- Environment in which the Finnhub tier succeeds with a valid quote. -/
def c1Env : Env :=
  { envAllNone with
    finnhubSearch := some "AAPL"
    finnhubQuote := fun _ => some ⟨some (some 150)⟩
    finnhubProfileName := fun _ => some "Apple Inc" }

def c1Payload : Payload := .finnhub "AAPL" (some "Apple Inc") ⟨some (some 150)⟩

theorem c1_priority_monotonic_witness :
    ∃ r, fetch_comprehensive_data c1Env "apple" = some r ∧
      r.primary_data = some c1Payload :=
  c1_priority_monotonic c1Env "apple" c1Payload (by decide)

/-- Environment in which Finnhub answers with a valid quote but a failed
profile request (no identifying name echo), while Alpha Vantage answers
with a fully valid overview. -/
def c1CexEnv : Env :=
  { envAllNone with
    finnhubSearch := some "AAPL"
    finnhubQuote := fun _ => some ⟨some (some 150)⟩
    avSearch := some ("AAPL", ⟨some "AAPL", some "Apple Inc", some "3000000000000"⟩) }

def c1CexFinnhubPayload : Payload := .finnhub "AAPL" none ⟨some (some 150)⟩

def c1CexAvPayload : Payload :=
  .alphaVantage "AAPL" ⟨some "AAPL", some "Apple Inc", some "3000000000000"⟩

/-- Claim C1 counterexample: under the Validity Gate of the spec (name or
symbol echo plus a real principal indicator, `specValid`), the Alpha
Vantage tier returns a gate-passing payload, yet the program records as
primary the Finnhub payload, which fails that gate for want of any name
echo — Finnhub's fetcher checks only the quote price.  So the primary
slot does not hold the result of the highest-priority tier that passed
the Validity Gate. -/
theorem c1_gate_counterexample :
    specValid c1CexAvPayload = true ∧
    tier2Result c1CexEnv = some c1CexAvPayload ∧
    specValid c1CexFinnhubPayload = false ∧
    fetch_comprehensive_data c1CexEnv "apple" =
      some ⟨some c1CexFinnhubPayload, [c1CexAvPayload], ["finnhub", "alpha_vantage"]⟩ := by
  refine ⟨by decide, by decide, by decide, by decide⟩

/-- Environment in which tiers 1-3 fail and the TickerTape search succeeds
with a company record whose price is zero and whose market capitalization
is missing. -/
def c2Env : Env :=
  { envAllNone with
    ttAvailable := true
    ttSearch := some ("TCS", ⟨some "Tata Consultancy Services", some 0, none⟩) }

def c2Payload : Payload :=
  .tickertape "TCS" "TCS" ⟨some "Tata Consultancy Services", some 0, none⟩
    none none none none

/-- Claim C2 counterexample: a TickerTape payload that fails the spec's
Validity Gate (zero price, missing market capitalization) is nevertheless
placed into the primary slot, because the Tier-4 path promotes the fetched
dict unconditionally once the search succeeds. -/
theorem c2_gate_counterexample :
    specValid c2Payload = false ∧
    fetch_comprehensive_data c2Env "tcs" = some ⟨some c2Payload, [], ["tickertape"]⟩ := by
  constructor
  · decide
  · decide

/-- Claim C2 (amended): a `ProviderResult` that fails the validity check
its own tier enforces is never placed into the primary slot nor appended
to the supplementary list; the checks are the None-return conditions of
the Finnhub, Alpha Vantage and yfinance fetchers, while the Tier-4
TickerTape path and the MoneyControl supplementary path enforce no check
(`codeValid` is constantly true there), so their payloads are promoted
whenever the search succeeds. -/
theorem c2_gate_amended (env : Env) (name : String) (r : Results) (p : Payload)
    (hr : fetch_comprehensive_data env name = some r)
    (hp : r.primary_data = some p ∨ p ∈ r.secondary_data) :
    codeValid p = true := by
  unfold fetch_comprehensive_data at hr
  by_cases hs : (aggregate_results env name).primary_data.isSome
  · simp only [hs, if_true, Option.some.injEq] at hr
    subst hr
    rcases hp with hp | hp
    · exact (aggregate_valid env name).1 p hp
    · exact (aggregate_valid env name).2 p hp
  · simp only [hs, Bool.false_eq_true, if_false] at hr
    exact absurd hr (by simp)

theorem c2_gate_amended_witness : codeValid c1Payload = true :=
  c2_gate_amended c1Env "apple" ⟨some c1Payload, [], ["finnhub"]⟩ c1Payload
    (by decide) (Or.inl rfl)

/-- Claim C3 (amended): when every tier produces no code-validated
payload — the Finnhub, Alpha Vantage and yfinance searches fail or their
fetchers return `None`, and the Tier-4 TickerTape search fails — the
primary slot stays null, nothing is ever appended to the supplementary
list, and the only failure surfaced to the caller is the `None` return of
`fetch_comprehensive_data`.  A successful Tier-4 search instead promotes
its payload even when that payload fails the spec's Validity Gate (see
the counterexample below), so total exhaustion additionally requires the
Tier-4 search itself to fail. -/
theorem c3_total_exhaustion (env : Env) (name : String)
    (h : firstValidTier env name = none) :
    (aggregate_results env name).primary_data = none ∧
    (aggregate_results env name).secondary_data = [] ∧
    fetch_comprehensive_data env name = none := by
  have hp : (aggregate_results env name).primary_data = none := by
    rw [aggregate_primary]; exact h
  have hpp : (primary_phase env name).primary_data = none := by
    rw [primary_phase_primary]; exact h
  have hsec : (aggregate_results env name).secondary_data = [] := by
    unfold aggregate_results
    simp only [hpp]
    unfold primary_phase
    rw [tier4_secondary, tier3_secondary, tier2_secondary, tier1_secondary]
  refine ⟨hp, hsec, ?_⟩
  unfold fetch_comprehensive_data
  simp only [hp, Option.isSome_none, Bool.false_eq_true, if_false]

theorem c3_total_exhaustion_witness :
    (aggregate_results envAllNone "nonexistentcorp123").primary_data = none ∧
    (aggregate_results envAllNone "nonexistentcorp123").secondary_data = [] ∧
    fetch_comprehensive_data envAllNone "nonexistentcorp123" = none :=
  c3_total_exhaustion envAllNone "nonexistentcorp123" (by decide)

/-- Environment in which tiers 1-3 fail outright while the TickerTape
search succeeds with a company record whose price is missing and whose
market capitalization is zero — a payload that fails the spec's Validity
Gate. -/
def c3CexEnv : Env :=
  { envAllNone with
    ttAvailable := true
    ttSearch := some ("INFY", ⟨some "Infosys Limited", none, some 0⟩) }

def c3CexPayload : Payload :=
  .tickertape "INFOSYS" "INFY" ⟨some "Infosys Limited", none, some 0⟩
    none none none none

/-- Claim C3 counterexample: a query in which every tier's payload fails
the spec's Validity Gate — tiers 1-3 produce nothing at all and the
Tier-4 payload has no price and zero market capitalization — yet the
primary slot is not null: the program promotes the gate-failing
TickerTape payload and returns a result instead of surfacing total
exhaustion. -/
theorem c3_gate_counterexample :
    tier1Result c3CexEnv = none ∧
    tier2Result c3CexEnv = none ∧
    tier3Result c3CexEnv = none ∧
    specValid c3CexPayload = false ∧
    fetch_comprehensive_data c3CexEnv "infosys" =
      some ⟨some c3CexPayload, [], ["tickertape"]⟩ := by
  refine ⟨by decide, by decide, by decide, by decide, by decide⟩

/-- Claim C9: the supplementary sweep never writes the primary slot — it
only appends to `secondary_data` and `data_sources` — so once a primary
result is recorded it is immutable, whatever each supplementary attempt
does; consequently the primary slot of the final aggregate equals the one
selected by the tier phase. -/
theorem c9_primary_immutable (env : Env) (name ps : String) (r : Results) :
    (supplementary_sweep env name ps r).primary_data = r.primary_data ∧
    (aggregate_results env name).primary_data = (primary_phase env name).primary_data := by
  refine ⟨sweep_primary env name ps r, ?_⟩
  rw [aggregate_primary, primary_phase_primary]

/- ### Lemmas about merge and deduplication -/

theorem dedupPass_append (A B : List Article) (seen : List String) :
    dedupPass (A ++ B) seen =
      ((dedupPass A seen).1 ++ (dedupPass B (dedupPass A seen).2).1,
       (dedupPass B (dedupPass A seen).2).2) := by
  induction A generalizing seen with
  | nil => simp [dedupPass]
  | cons a rest ih =>
    by_cases hc : normTitle a ≠ "" ∧ normTitle a ∉ seen ∧ (normTitle a).length > 10
    · simp [List.cons_append, dedupPass, if_pos hc, ih]
    · simp [List.cons_append, dedupPass, if_neg hc, ih]

theorem mem_dedupPass_seen (A : List Article) (seen : List String) (s : String)
    (h : s ∈ seen) : s ∈ (dedupPass A seen).2 := by
  induction A generalizing seen with
  | nil => simpa [dedupPass] using h
  | cons a rest ih =>
    simp only [dedupPass]
    by_cases hc : normTitle a ≠ "" ∧ normTitle a ∉ seen ∧ (normTitle a).length > 10
    · rw [if_pos hc]; exact ih _ (List.mem_cons_of_mem _ h)
    · rw [if_neg hc]; exact ih _ h

theorem key_mem_dedupPass (A : List Article) (seen : List String) (a : Article)
    (ha : a ∈ A) (hk : (normTitle a).length > 10) :
    normTitle a ∈ (dedupPass A seen).2 := by
  induction A generalizing seen with
  | nil => cases ha
  | cons b rest ih =>
    simp only [dedupPass]
    by_cases hc : normTitle b ≠ "" ∧ normTitle b ∉ seen ∧ (normTitle b).length > 10
    · rw [if_pos hc]
      rcases List.mem_cons.mp ha with hab | ha2
      · subst hab
        exact mem_dedupPass_seen _ _ _ (List.mem_cons_self _ _)
      · exact ih _ ha2
    · rw [if_neg hc]
      rcases List.mem_cons.mp ha with hab | ha2
      · subst hab
        have hne : normTitle a ≠ "" := by
          intro he
          rw [he] at hk
          exact absurd hk (by decide)
        have hmem : normTitle a ∈ seen := by
          by_contra hnm
          exact hc ⟨hne, hnm, hk⟩
        exact mem_dedupPass_seen _ _ _ hmem
      · exact ih _ ha2

theorem dedupPass_all_seen (B : List Article) (seen : List String)
    (h : ∀ a ∈ B, (normTitle a).length > 10 → normTitle a ∈ seen) :
    dedupPass B seen = ([], seen) := by
  induction B with
  | nil => rfl
  | cons b rest ih =>
    simp only [dedupPass]
    have hc : ¬(normTitle b ≠ "" ∧ normTitle b ∉ seen ∧ (normTitle b).length > 10) := by
      rintro ⟨hne, hnm, hlen⟩
      exact hnm (h b (List.mem_cons_self _ _) hlen)
    rw [if_neg hc]
    exact ih (fun a ha hl => h a (List.mem_cons_of_mem _ ha) hl)

theorem mem_dedup_first_occurrence (A : List Article) (seen : List String) (x : Article)
    (hx : x ∈ (dedupPass A seen).1) :
    (normTitle x).length > 10 ∧ normTitle x ∉ seen ∧
      A.find? (fun y => normTitle y == normTitle x) = some x := by
  induction A generalizing seen with
  | nil => simp [dedupPass] at hx
  | cons a rest ih =>
    simp only [dedupPass] at hx
    by_cases hc : normTitle a ≠ "" ∧ normTitle a ∉ seen ∧ (normTitle a).length > 10
    · rw [if_pos hc] at hx
      rcases List.mem_cons.mp hx with hxa | hx2
      · subst hxa
        exact ⟨hc.2.2, hc.2.1, by simp [List.find?]⟩
      · obtain ⟨hlen, hnm, hfind⟩ := ih _ hx2
        have hne : normTitle a ≠ normTitle x := by
          intro he
          exact hnm (by rw [← he]; exact List.mem_cons_self _ _)
        refine ⟨hlen, fun hmem => hnm (List.mem_cons_of_mem _ hmem), ?_⟩
        rw [List.find?_cons_of_neg _ (by simp [hne])]
        exact hfind
    · rw [if_neg hc] at hx
      obtain ⟨hlen, hnm, hfind⟩ := ih _ hx
      have hne : normTitle a ≠ normTitle x := by
        intro he
        apply hnm
        rw [← he]
        by_contra hnotin
        refine hc ⟨?_, hnotin, by rw [he]; exact hlen⟩
        rw [he]
        intro h0
        rw [h0] at hlen
        exact absurd hlen (by decide)
      refine ⟨hlen, hnm, ?_⟩
      rw [List.find?_cons_of_neg _ (by simp [hne])]
      exact hfind

theorem find_mem_dedup (A : List Article) (seen : List String) (x : Article)
    (hlen : (normTitle x).length > 10) (hns : normTitle x ∉ seen)
    (hfind : A.find? (fun y => normTitle y == normTitle x) = some x) :
    x ∈ (dedupPass A seen).1 := by
  induction A generalizing seen with
  | nil => simp [List.find?] at hfind
  | cons a rest ih =>
    by_cases hpa : normTitle a = normTitle x
    · rw [List.find?_cons_of_pos _ (by simp [hpa])] at hfind
      simp only [Option.some.injEq] at hfind
      subst hfind
      simp only [dedupPass]
      have hc : normTitle a ≠ "" ∧ normTitle a ∉ seen ∧ (normTitle a).length > 10 := by
        refine ⟨?_, hns, hlen⟩
        intro h0
        rw [h0] at hlen
        exact absurd hlen (by decide)
      rw [if_pos hc]
      exact List.mem_cons_self _ _
    · rw [List.find?_cons_of_neg _ (by simp [hpa])] at hfind
      simp only [dedupPass]
      by_cases hc : normTitle a ≠ "" ∧ normTitle a ∉ seen ∧ (normTitle a).length > 10
      · rw [if_pos hc]
        refine List.mem_cons_of_mem _ (ih _ ?_ hfind)
        intro hmem
        rcases List.mem_cons.mp hmem with he | hm
        · exact hpa he.symm
        · exact hns hm
      · rw [if_neg hc]
        exact ih _ hns hfind

theorem dedup_keys_pairwise (A : List Article) (seen : List String) :
    List.Pairwise (fun a b => normTitle a ≠ normTitle b) (dedupPass A seen).1 := by
  induction A generalizing seen with
  | nil => exact List.Pairwise.nil
  | cons a rest ih =>
    simp only [dedupPass]
    by_cases hc : normTitle a ≠ "" ∧ normTitle a ∉ seen ∧ (normTitle a).length > 10
    · rw [if_pos hc]
      refine List.Pairwise.cons (fun y hy => ?_) (ih _)
      have h2 := (mem_dedup_first_occurrence rest _ y hy).2.1
      intro he
      exact h2 (by rw [← he]; exact List.mem_cons_self _ _)
    · rw [if_neg hc]
      exact ih _

theorem countP_key_le_one (l : List Article) (k : String)
    (h : List.Pairwise (fun a b => normTitle a ≠ normTitle b) l) :
    l.countP (fun y => normTitle y == k) ≤ 1 := by
  induction l with
  | nil => simp
  | cons a t ih =>
    rw [List.countP_cons]
    rcases List.pairwise_cons.mp h with ⟨ha, ht⟩
    by_cases hk : normTitle a = k
    · have h0 : t.countP (fun y => normTitle y == k) = 0 := by
        rw [List.countP_eq_zero]
        intro y hy
        simp only [beq_iff_eq]
        rw [← hk]
        exact fun he => ha y hy he.symm
      simp [h0, hk]
    · simp [hk, ih ht]

/- ### Lemmas about the descending stable sort -/

theorem charListLe_total (x y : List Char) :
    charListLe x y = true ∨ charListLe y x = true := by
  induction x generalizing y with
  | nil => left; rfl
  | cons a as ih =>
    cases y with
    | nil => right; rfl
    | cons b bs =>
      rcases Nat.lt_trichotomy a.toNat b.toNat with h | h | h
      · left; simp [charListLe, h]
      · have h1 : ¬ a.toNat < b.toNat := by omega
        have h2 : ¬ b.toNat < a.toNat := by omega
        rcases ih bs with h3 | h3
        · left; simp [charListLe, h1, h2, h3]
        · right; simp [charListLe, h1, h2, h3]
      · right; simp [charListLe, h]

theorem charListLe_trans (x y z : List Char) (h1 : charListLe x y = true)
    (h2 : charListLe y z = true) : charListLe x z = true := by
  induction x generalizing y z with
  | nil => rfl
  | cons a as ih =>
    cases y with
    | nil => simp [charListLe] at h1
    | cons b bs =>
      cases z with
      | nil => simp [charListLe] at h2
      | cons c cs =>
        simp only [charListLe] at h1 h2 ⊢
        rcases Nat.lt_trichotomy a.toNat b.toNat with hab | hab | hab
        · rcases Nat.lt_trichotomy b.toNat c.toNat with hbc | hbc | hbc
          · simp [Nat.lt_trans hab hbc]
          · simp [hbc ▸ hab]
          · rw [if_neg (by omega), if_pos hbc] at h2
            simp at h2
        · rcases Nat.lt_trichotomy b.toNat c.toNat with hbc | hbc | hbc
          · simp [hab ▸ hbc]
          · have hac1 : ¬ a.toNat < c.toNat := by omega
            have hac2 : ¬ c.toNat < a.toNat := by omega
            rw [if_neg (by omega), if_neg (by omega)] at h1
            rw [if_neg (by omega), if_neg (by omega)] at h2
            simp only [hac1, hac2, if_false]
            exact ih bs cs h1 h2
          · rw [if_neg (by omega), if_pos hbc] at h2
            simp at h2
        · rw [if_neg (by omega), if_pos hab] at h1
          simp at h1

theorem charListLe_nil_right (x : List Char) (h : charListLe x [] = true) : x = [] := by
  cases x with
  | nil => rfl
  | cons a as => simp [charListLe] at h

theorem merge_output_sorted (A : List Article) :
    List.Pairwise newsDescOrder (fast_deduplicate_and_sort A) := by
  unfold fast_deduplicate_and_sort
  haveI : IsTotal Article newsDescOrder :=
    ⟨fun a b => charListLe_total (pubKey b).data (pubKey a).data⟩
  haveI : IsTrans Article newsDescOrder :=
    ⟨fun a b c hab hbc => charListLe_trans _ (pubKey b).data _ hbc hab⟩
  exact List.Pairwise.sublist (List.take_sublist _ _)
    (List.sorted_insertionSort newsDescOrder _)

theorem merge_mem_dedup (A : List Article) (x : Article)
    (hx : x ∈ fast_deduplicate_and_sort A) : x ∈ (dedupPass A []).1 := by
  unfold fast_deduplicate_and_sort at hx
  exact (List.perm_insertionSort newsDescOrder _).subset (List.take_subset _ _ hx)

/- ### Claims about merge and deduplication -/

/-- Claim C4: merging the concatenation of an article list with itself
yields the same deduplicated, ordered output as merging the list once:
every article of the second copy either has its identity key already in
the seen set after the first copy, or is dropped by the length gate both
times. -/
theorem c4_merge_idempotent (A : List Article) :
    fast_deduplicate_and_sort (A ++ A) = fast_deduplicate_and_sort A := by
  have h1 : (dedupPass (A ++ A) []).1 = (dedupPass A []).1 := by
    rw [dedupPass_append]
    rw [dedupPass_all_seen A _ (fun a ha hl => key_mem_dedupPass A [] a ha hl)]
    simp
  unfold fast_deduplicate_and_sort
  simp only [h1]

/-- Two articles with titles that differ only in internal whitespace:
equal identity keys under the normalization of the spec, distinct keys
under the normalization of the code. -/
def c5ArticleA : Article :=
  ⟨"Apple  Q3 Earnings Beat Estimates", "https://one", "Finnhub", none⟩

def c5ArticleB : Article :=
  ⟨"Apple Q3 Earnings Beat Estimates", "https://two", "NewsAPI", none⟩

/-- Claim C5 counterexample: the code normalizes titles by lowercasing and
trimming only — it does not collapse internal whitespace — so two articles
whose titles are equal after the spec's normalization (trimmed,
whitespace-collapsed, lowercased) but differ in internal spacing both
survive the merge, instead of collapsing to one entry. -/
theorem c5_collapse_counterexample :
    specNormalize c5ArticleA.title = specNormalize c5ArticleB.title ∧
    c5ArticleA.url ≠ c5ArticleB.url ∧
    fast_deduplicate_and_sort [c5ArticleA, c5ArticleB] = [c5ArticleA, c5ArticleB] := by
  refine ⟨by decide, by decide, by decide⟩

/-- Claim C5 (amended): with the code's normalization (lowercased and
trimmed, no whitespace collapsing), every article retained by the merge is
the first occurrence of its identity key in input order — the
higher-priority provider's version — and the output never contains two
entries with the same identity key (the 25-item cap can only remove
entries, never duplicate them). -/
theorem c5_identity_key (A : List Article) (x : Article)
    (hx : x ∈ fast_deduplicate_and_sort A) :
    A.find? (fun y => normTitle y == normTitle x) = some x ∧
    (fast_deduplicate_and_sort A).countP (fun y => normTitle y == normTitle x) ≤ 1 := by
  have hd : x ∈ (dedupPass A []).1 := merge_mem_dedup A x hx
  refine ⟨(mem_dedup_first_occurrence A [] x hd).2.2, ?_⟩
  have hpw : List.Pairwise (fun a b => normTitle a ≠ normTitle b)
      (fast_deduplicate_and_sort A) := by
    unfold fast_deduplicate_and_sort
    refine List.Pairwise.sublist (List.take_sublist _ _) ?_
    exact (List.Perm.pairwise_iff (fun h => h.symm)
      (List.perm_insertionSort newsDescOrder _)).mpr (dedup_keys_pairwise A [])
  exact countP_key_le_one _ _ hpw

def c5WitnessArticle : Article :=
  ⟨"Broad Market Rally Continues", "https://w", "Finnhub", some "2024-01-01"⟩

theorem c5_identity_key_witness :
    [c5WitnessArticle].find?
      (fun y => normTitle y == normTitle c5WitnessArticle) = some c5WitnessArticle ∧
    (fast_deduplicate_and_sort [c5WitnessArticle]).countP
      (fun y => normTitle y == normTitle c5WitnessArticle) ≤ 1 :=
  c5_identity_key [c5WitnessArticle] c5WitnessArticle (by decide)

/-- Claim C6 (amended): the merge output is non-increasing in the raw
sort key `published_at or ''` under the Python lexicographic code-point
string order — the stable descending sort the code performs — and an
entry with an empty key (a null `published_at`) is never followed by one
with a non-empty key.  This coincides with most-recent-first order only
when all stored timestamp strings share one sortable format; across the
mixed formats the providers actually deliver (RFC-822 RSS dates next to
ISO dates) or for unparseable strings, the string order diverges from
chronological order — see the counterexample below. -/
theorem c6_ordering (A : List Article) :
    List.Pairwise (fun a b => strLeB (pubKey b) (pubKey a) = true)
      (fast_deduplicate_and_sort A) ∧
    List.Pairwise (fun a b => pubKey a = "" → pubKey b = "")
      (fast_deduplicate_and_sort A) := by
  have hs := merge_output_sorted A
  refine ⟨hs, hs.imp ?_⟩
  intro a b h hk
  have h2 : strLeB (pubKey b) (pubKey a) = true := h
  rw [hk] at h2
  have hd := charListLe_nil_right (pubKey b).data h2
  exact congrArg String.mk hd

/-- An article dated June 2024 carrying an ISO timestamp, as the Finnhub,
NewsAPI and yfinance constructors store it. -/
def c6IsoArticle : Article :=
  ⟨"Markets rally to records in June of this year", "https://iso", "NewsAPI",
   some "2024-06-01T12:00:00"⟩

/-- An article dated January 2020 carrying the raw RFC-822 date string of
a Google News RSS pubDate. -/
def c6Rfc822Article : Article :=
  ⟨"Stocks slip on virus fears early in the year", "https://rss", "Google News RSS",
   some "Wed, 01 Jan 2020 00:00:00 GMT"⟩

/-- An article whose stored timestamp is not a date at all. -/
def c6JunkArticle : Article :=
  ⟨"Article carrying an unparseable publication timestamp", "https://junk", "NewsData",
   some "not a real timestamp"⟩

/-- Claim C6 counterexample: the sort compares the raw stored strings, so
an RFC-822-dated article from January 2020 is placed before an ISO-dated
article from June 2024 (the letter `W` exceeds the digit `2` by code
point) — the output is not most-recent-first — and an article with an
unparseable timestamp string is likewise placed before a dated entry
rather than after every dated entry. -/
theorem c6_order_counterexample :
    fast_deduplicate_and_sort [c6IsoArticle, c6Rfc822Article] =
      [c6Rfc822Article, c6IsoArticle] ∧
    fast_deduplicate_and_sort [c6IsoArticle, c6JunkArticle] =
      [c6JunkArticle, c6IsoArticle] := by
  refine ⟨by decide, by decide⟩

/-- An article whose normalized title has exactly the minimum length the
spec names. -/
def c7Article : Article := ⟨"ABCDEFGHIJ", "https://ten", "Finnhub", none⟩

/-- Claim C7 counterexample: an article whose normalized title is exactly
10 characters long is dropped by the merge, because the code keeps a title
only when `len(title_key) > 10` — the spec's reading that a 10-character
title meets the minimum and is retained is false on the code. -/
theorem c7_exact_ten_dropped :
    (normTitle c7Article).length = 10 ∧
    fast_deduplicate_and_sort [c7Article] = [] := by
  refine ⟨by decide, by decide⟩

/-- Claim C7 (amended): an article survives the deduplication pass of the
merge exactly when its normalized title is strictly longer than 10
characters and it is the first occurrence of its identity key in the
input; in particular a normalized title of exactly 10 characters is
dropped.  (The final output further caps the survivors to the 25 most
recent.) -/
theorem c7_minimum_length (A : List Article) (x : Article) :
    x ∈ (dedupPass A []).1 ↔
      (normTitle x).length > 10 ∧
        A.find? (fun y => normTitle y == normTitle x) = some x := by
  constructor
  · intro hx
    obtain ⟨h1, _, h3⟩ := mem_dedup_first_occurrence A [] x hx
    exact ⟨h1, h3⟩
  · rintro ⟨h1, h2⟩
    exact find_mem_dedup A [] x h1 (by simp) h2

/- ### Claims about symbol resolution and sentiment -/

/-- Claim C8: symbol resolution is a pure, total string transformation
that never fails and always returns a candidate: when neither the static
mapping table (keyed by lowercased name) nor the inferred table (keyed by
uppercased name) matches, the uppercased raw input is returned as the
fallback candidate. -/
theorem c8_resolver_fallback (company_name : String)
    (h1 : stock_mappings.lookup (pyLower company_name) = none)
    (h2 : inferred_mappings.lookup (pyUpper company_name) = none) :
    get_stock_info company_name =
      ⟨company_name, pyUpper company_name, "UNKNOWN", pyUpper company_name, false⟩ := by
  unfold get_stock_info
  simp only [h1, h2]

theorem c8_resolver_fallback_witness :
    get_stock_info "zzz unknown corp" =
      ⟨"zzz unknown corp", "ZZZ UNKNOWN CORP", "UNKNOWN", "ZZZ UNKNOWN CORP", false⟩ :=
  c8_resolver_fallback "zzz unknown corp" (by decide) (by decide)

theorem sentiment_label_iff (p : ℚ) :
    ((if p > 1/10 then "positive" else if p < -(1/10) then "negative" else "neutral") = "positive"
        ↔ p > 1/10) ∧
    ((if p > 1/10 then "positive" else if p < -(1/10) then "negative" else "neutral") = "negative"
        ↔ p < -(1/10)) ∧
    ((if p > 1/10 then "positive" else if p < -(1/10) then "negative" else "neutral") = "neutral"
        ↔ (¬ p > 1/10 ∧ ¬ p < -(1/10))) := by
  by_cases h1 : p > 1/10
  · rw [if_pos h1]
    refine ⟨⟨fun _ => h1, fun _ => rfl⟩, ?_, ?_⟩
    · constructor
      · intro he; exact absurd he (by decide)
      · intro h2; exfalso; linarith
    · constructor
      · intro he; exact absurd he (by decide)
      · rintro ⟨ha, _⟩; exact absurd h1 ha
  · rw [if_neg h1]
    by_cases h2 : p < -(1/10)
    · rw [if_pos h2]
      refine ⟨?_, ⟨fun _ => h2, fun _ => rfl⟩, ?_⟩
      · constructor
        · intro he; exact absurd he (by decide)
        · intro h3; exact absurd h3 h1
      · constructor
        · intro he; exact absurd he (by decide)
        · rintro ⟨_, hb⟩; exact absurd h2 hb
    · rw [if_neg h2]
      refine ⟨?_, ?_, ⟨fun _ => ⟨h1, h2⟩, fun _ => rfl⟩⟩
      · constructor
        · intro he; exact absurd he (by decide)
        · intro h3; exact absurd h3 h1
      · constructor
        · intro he; exact absurd he (by decide)
        · intro h3; exact absurd h3 h2

/-- Claim C10: in both sentiment analyzers the label is determined from
the polarity by the fixed thresholds — positive exactly when the polarity
exceeds 1/10, negative exactly when it is below -1/10, neutral otherwise —
and whenever TextBlob is unavailable, the text is empty
(`analyze_sentiment` only), or the analysis raises, the result is neutral
with polarity 0. -/
theorem c10_sentiment_thresholds (textblob : TextBlobOracle)
    (title content text : String) :
    (textblob = none →
      analyze_sentiment_fast textblob title content = ⟨"neutral", 0, 0⟩ ∧
      analyze_sentiment textblob text = ⟨"neutral", 0, 0⟩) ∧
    (∀ tb, textblob = some tb →
      (tb (title ++ " " ++ ⟨content.data.take 200⟩) = none →
        analyze_sentiment_fast textblob title content = ⟨"neutral", 0, 0⟩) ∧
      (∀ p s, tb (title ++ " " ++ ⟨content.data.take 200⟩) = some (p, s) →
        ((analyze_sentiment_fast textblob title content).sentiment = "positive" ↔ p > 1/10) ∧
        ((analyze_sentiment_fast textblob title content).sentiment = "negative" ↔ p < -(1/10)) ∧
        ((analyze_sentiment_fast textblob title content).sentiment = "neutral" ↔
          (¬ p > 1/10 ∧ ¬ p < -(1/10)))) ∧
      (text = "" → analyze_sentiment textblob text = ⟨"neutral", 0, 0⟩) ∧
      (text ≠ "" → tb text = none →
        analyze_sentiment textblob text = ⟨"neutral", 0, 0⟩) ∧
      (∀ p s, text ≠ "" → tb text = some (p, s) →
        ((analyze_sentiment textblob text).sentiment = "positive" ↔ p > 1/10) ∧
        ((analyze_sentiment textblob text).sentiment = "negative" ↔ p < -(1/10)) ∧
        ((analyze_sentiment textblob text).sentiment = "neutral" ↔
          (¬ p > 1/10 ∧ ¬ p < -(1/10))))) := by
  refine ⟨?_, ?_⟩
  · intro h; subst h; exact ⟨rfl, rfl⟩
  · intro tb htb
    subst htb
    refine ⟨?_, ?_, ?_, ?_, ?_⟩
    · intro hnone
      simp [analyze_sentiment_fast, hnone]
    · intro p s hsome
      simp only [analyze_sentiment_fast, hsome]
      exact sentiment_label_iff p
    · intro htext
      subst htext
      simp [analyze_sentiment]
    · intro htext hnone
      simp [analyze_sentiment, if_neg htext, hnone]
    · intro p s htext hsome
      simp only [analyze_sentiment, if_neg htext, hsome]
      exact sentiment_label_iff p

end FinTellect
